import Mathlib

/-!
Shallow embedding of `src/backend/routes/api/bookings.js`: the booking
update/delete routes of an Express + Sequelize app.  Date instants are
modelled as `Int` milliseconds since the epoch (the value of
`Date.prototype.getTime`); JavaScript comparison of `Date` objects with
`<`, `<=`, `>=` coerces both sides to that number, so the embedding
compares the integers directly.
-/

/-- A row of the `Bookings` table, with dates as epoch milliseconds. -/
structure BookingRec where
  id : Nat
  spotId : Nat
  userId : Nat
  startDate : Int
  endDate : Int
deriving DecidableEq, Repr

/-- A row of the `Spots` table (only the fields the routes read). -/
structure SpotRec where
  id : Nat
  ownerId : Nat
deriving DecidableEq, Repr

/-- The `errors` object accumulated by the conflict middlewares:
an optional message under key `startDate` and one under key `endDate`. -/
structure ConflictErrors where
  startDate : Option String
  endDate : Option String
deriving DecidableEq, Repr

/-- Holds when `Object.entries(errRes.errors).length` is zero: no key was ever set. -/
def ConflictErrors.isEmpty (er : ConflictErrors) : Bool :=
  er.startDate.isNone && er.endDate.isNone

/-- The literal `86300000` used throughout `bookings.js`. -/
def PROXIMITY_BUFFER_MS : Int := 86300000

def startConflictMsg : String := "Start date conflicts with an existing booking"

def endConflictMsg : String := "End date conflicts with an existing booking"

def bookedMsg : String := "Sorry, this spot is already booked for the specified dates"

def startPastMsg : String := "startDate cannot be in the past"

def endBeforeMsg : String := "endDate cannot be on or before startDate"

/-- The database visible to the routes. -/
structure DB where
  bookings : List BookingRec
  spots : List SpotRec
deriving Repr

/-- Embeds `Booking.findByPk(id)`. -/
def DB.findBooking (db : DB) (bid : Nat) : Option BookingRec :=
  db.bookings.find? (fun b => b.id == bid)

/-- Embeds `Spot.findByPk(id)` with no include. -/
def DB.findSpot (db : DB) (sid : Nat) : Option SpotRec :=
  db.spots.find? (fun s => s.id == sid)

/-- The bookings on spot `sid` other than booking `excludeId`: the rows the
included `where: \x7b id: \x7b [Op.not]: booking.id \x7d \x7d` clause selects. -/
def DB.otherBookingsOnSpot (db : DB) (sid excludeId : Nat) : List BookingRec :=
  db.bookings.filter (fun b => b.spotId == sid && b.id != excludeId)

/-- Embeds `Spot.findByPk(spotId, \x7b include: [\x7b model: Booking, where: \x7b id:
\x7b [Op.not]: excludeId \x7d \x7d \x7d] \x7d)`.  In Sequelize a `where`
clause on an include sets `required` to `true` by default, so the join is
inner: when the spot exists but has no other bookings the query returns no
row at all (`null`), not a spot with an empty `Bookings` array. -/
def DB.findSpotWithOtherBookings (db : DB) (sid excludeId : Nat) :
    Option (SpotRec × List BookingRec) :=
  match db.findSpot sid with
  | none => none
  | some sp =>
    let others := db.otherBookingsOnSpot sid excludeId
    if others.isEmpty then none else some (sp, others)

/-- Embeds `Spot.findAll` with the same inner-join include: a list of rows, empty
when the inner join matches nothing. -/
def DB.findAllSpotsWithOtherBookings (db : DB) (sid excludeId : Nat) :
    List (SpotRec × List BookingRec) :=
  match db.findSpotWithOtherBookings sid excludeId with
  | none => []
  | some p => [p]

/-- One iteration of the `spot.Bookings.forEach` loop in `noSameDates`
(lines 83-94): flag `startDate` when the candidate start is inside
`[bookingStart - 86300000, bookingStart + 86300000]`, and independently
flag `endDate` for the candidate end against the booking end. -/
def noSameDatesStep (s e : Int) (er : ConflictErrors) (b : BookingRec) : ConflictErrors :=
  let er1 :=
    if b.startDate - 86300000 ≤ s ∧ s ≤ b.startDate + 86300000 then
      { er with startDate := some startConflictMsg }
    else er
  if b.endDate - 86300000 ≤ e ∧ e ≤ b.endDate + 86300000 then
    { er1 with endDate := some endConflictMsg }
  else er1

/-- The `errRes.errors` object after the whole `forEach` loop of
`noSameDates`, starting from the empty object. -/
def noSameDatesErrors (s e : Int) (others : List BookingRec) : ConflictErrors :=
  others.foldl (noSameDatesStep s e) ⟨none, none⟩

theorem noSameDatesStep_startDate (s e : Int) (er : ConflictErrors) (b : BookingRec) :
    (noSameDatesStep s e er b).startDate =
      if b.startDate - 86300000 ≤ s ∧ s ≤ b.startDate + 86300000 then some startConflictMsg
      else er.startDate := by
  simp only [noSameDatesStep]
  split_ifs <;> rfl

theorem noSameDatesStep_endDate (s e : Int) (er : ConflictErrors) (b : BookingRec) :
    (noSameDatesStep s e er b).endDate =
      if b.endDate - 86300000 ≤ e ∧ e ≤ b.endDate + 86300000 then some endConflictMsg
      else er.endDate := by
  simp only [noSameDatesStep]
  split_ifs <;> rfl

theorem noSameDates_foldl_startDate (s e : Int) (others : List BookingRec)
    (er : ConflictErrors) :
    (others.foldl (noSameDatesStep s e) er).startDate =
      if (others.any fun b =>
            decide (b.startDate - 86300000 ≤ s ∧ s ≤ b.startDate + 86300000)) = true
      then some startConflictMsg else er.startDate := by
  induction others generalizing er with
  | nil => simp
  | cons b rest ih =>
    rw [List.foldl_cons, ih, noSameDatesStep_startDate, List.any_cons]
    by_cases hb : b.startDate - 86300000 ≤ s ∧ s ≤ b.startDate + 86300000
    · have hcons : (decide (b.startDate - 86300000 ≤ s ∧ s ≤ b.startDate + 86300000) ||
          rest.any fun b =>
            decide (b.startDate - 86300000 ≤ s ∧ s ≤ b.startDate + 86300000)) = true := by
        rw [decide_eq_true hb, Bool.true_or]
      rw [if_pos hb, if_pos hcons]
      by_cases hr : (rest.any fun b =>
          decide (b.startDate - 86300000 ≤ s ∧ s ≤ b.startDate + 86300000)) = true
      · rw [if_pos hr]
      · rw [if_neg hr]
    · rw [if_neg hb, decide_eq_false hb, Bool.false_or]

theorem noSameDates_foldl_endDate (s e : Int) (others : List BookingRec)
    (er : ConflictErrors) :
    (others.foldl (noSameDatesStep s e) er).endDate =
      if (others.any fun b =>
            decide (b.endDate - 86300000 ≤ e ∧ e ≤ b.endDate + 86300000)) = true
      then some endConflictMsg else er.endDate := by
  induction others generalizing er with
  | nil => simp
  | cons b rest ih =>
    rw [List.foldl_cons, ih, noSameDatesStep_endDate, List.any_cons]
    by_cases hb : b.endDate - 86300000 ≤ e ∧ e ≤ b.endDate + 86300000
    · have hcons : (decide (b.endDate - 86300000 ≤ e ∧ e ≤ b.endDate + 86300000) ||
          rest.any fun b =>
            decide (b.endDate - 86300000 ≤ e ∧ e ≤ b.endDate + 86300000)) = true := by
        rw [decide_eq_true hb, Bool.true_or]
      rw [if_pos hb, if_pos hcons]
      by_cases hr : (rest.any fun b =>
          decide (b.endDate - 86300000 ≤ e ∧ e ≤ b.endDate + 86300000)) = true
      · rw [if_pos hr]
      · rw [if_neg hr]
    · rw [if_neg hb, decide_eq_false hb, Bool.false_or]

theorem bufferWindow_iff_abs (x c : Int) :
    (c - 86300000 ≤ x ∧ x ≤ c + 86300000) ↔ |x - c| ≤ PROXIMITY_BUFFER_MS := by
  rw [abs_le]
  unfold PROXIMITY_BUFFER_MS
  constructor <;> rintro ⟨h1, h2⟩ <;> constructor <;> linarith

theorem noSameDatesErrors_startDate_isSome (s e : Int) (others : List BookingRec) :
    (noSameDatesErrors s e others).startDate.isSome = true ↔
      ∃ b ∈ others, |s - b.startDate| ≤ PROXIMITY_BUFFER_MS := by
  unfold noSameDatesErrors
  rw [noSameDates_foldl_startDate]
  by_cases hany : (others.any fun b =>
      decide (b.startDate - 86300000 ≤ s ∧ s ≤ b.startDate + 86300000)) = true
  · rw [if_pos hany]
    simp only [Option.isSome_some, true_iff]
    rcases List.any_eq_true.mp hany with ⟨b, hb, hcond⟩
    exact ⟨b, hb, (bufferWindow_iff_abs s b.startDate).mp (of_decide_eq_true hcond)⟩
  · rw [if_neg hany]
    constructor
    · intro h
      simp at h
    · rintro ⟨b, hb, hbs⟩
      exact (hany (List.any_eq_true.mpr
        ⟨b, hb, decide_eq_true ((bufferWindow_iff_abs s b.startDate).mpr hbs)⟩)).elim

theorem noSameDatesErrors_endDate_isSome (s e : Int) (others : List BookingRec) :
    (noSameDatesErrors s e others).endDate.isSome = true ↔
      ∃ b ∈ others, |e - b.endDate| ≤ PROXIMITY_BUFFER_MS := by
  unfold noSameDatesErrors
  rw [noSameDates_foldl_endDate]
  by_cases hany : (others.any fun b =>
      decide (b.endDate - 86300000 ≤ e ∧ e ≤ b.endDate + 86300000)) = true
  · rw [if_pos hany]
    simp only [Option.isSome_some, true_iff]
    rcases List.any_eq_true.mp hany with ⟨b, hb, hcond⟩
    exact ⟨b, hb, (bufferWindow_iff_abs e b.endDate).mp (of_decide_eq_true hcond)⟩
  · rw [if_neg hany]
    constructor
    · intro h
      simp at h
    · rintro ⟨b, hb, hbs⟩
      exact (hany (List.any_eq_true.mpr
        ⟨b, hb, decide_eq_true ((bufferWindow_iff_abs e b.endDate).mpr hbs)⟩)).elim

/-- One iteration of the `forEach` loop in `noBookingAround` (lines
120-128): when the existing booking lies entirely inside the candidate
range, set both error keys. -/
def noBookingAroundStep (s e : Int) (er : ConflictErrors) (b : BookingRec) : ConflictErrors :=
  if b.startDate ≥ s ∧ b.endDate ≤ e then
    { er with startDate := some startConflictMsg, endDate := some endConflictMsg }
  else er

/-- The `errRes.errors` object after the `forEach` loop of `noBookingAround`. -/
def noBookingAroundErrors (s e : Int) (others : List BookingRec) : ConflictErrors :=
  others.foldl (noBookingAroundStep s e) ⟨none, none⟩

theorem noBookingAround_foldl (s e : Int) (others : List BookingRec) (er : ConflictErrors) :
    others.foldl (noBookingAroundStep s e) er =
      if (others.any fun b => decide (b.startDate ≥ s ∧ b.endDate ≤ e)) = true
      then ⟨some startConflictMsg, some endConflictMsg⟩ else er := by
  induction others generalizing er with
  | nil => simp
  | cons b rest ih =>
    rw [List.foldl_cons, ih, List.any_cons]
    by_cases hb : b.startDate ≥ s ∧ b.endDate ≤ e
    · have hcons : (decide (b.startDate ≥ s ∧ b.endDate ≤ e) ||
          rest.any fun b => decide (b.startDate ≥ s ∧ b.endDate ≤ e)) = true := by
        rw [decide_eq_true hb, Bool.true_or]
      rw [if_pos hcons]
      by_cases hr : (rest.any fun b => decide (b.startDate ≥ s ∧ b.endDate ≤ e)) = true
      · rw [if_pos hr]
      · rw [if_neg hr]
        simp only [noBookingAroundStep]
        rw [if_pos hb]
    · rw [decide_eq_false hb, Bool.false_or]
      simp only [noBookingAroundStep]
      rw [if_neg hb]

/-- The function `noBookingAroundErrors` characterised: either nothing was flagged, or
there is an enclosed booking and both keys carry their messages. -/
theorem noBookingAroundErrors_eq (s e : Int) (others : List BookingRec) :
    noBookingAroundErrors s e others =
      if (∃ b ∈ others, b.startDate ≥ s ∧ b.endDate ≤ e)
      then ⟨some startConflictMsg, some endConflictMsg⟩ else ⟨none, none⟩ := by
  unfold noBookingAroundErrors
  rw [noBookingAround_foldl]
  by_cases h : ∃ b ∈ others, b.startDate ≥ s ∧ b.endDate ≤ e
  · rcases h with ⟨b, hb, hcond⟩
    have hany : (others.any fun b => decide (b.startDate ≥ s ∧ b.endDate ≤ e)) = true :=
      List.any_eq_true.mpr ⟨b, hb, decide_eq_true hcond⟩
    rw [if_pos hany, if_pos ⟨b, hb, hcond⟩]
  · have hany : ¬ (others.any fun b => decide (b.startDate ≥ s ∧ b.endDate ≤ e)) = true := by
      intro hc
      rcases List.any_eq_true.mp hc with ⟨b, hb, hcond⟩
      exact h ⟨b, hb, of_decide_eq_true hcond⟩
    rw [if_neg hany, if_neg h]

/-- The inner `spot.Bookings.forEach` of the `startDate` chain of
`bookingConflictCheck` (lines 185-194): a `throw` inside `forEach` aborts
the whole loop with that error, so the scan stops at the first booking
whose interval contains the candidate instant. -/
def bccScan (msg : String) (nd : Int) : List BookingRec → Except String Unit
  | [] => Except.ok ()
  | b :: rest =>
    if nd ≥ b.startDate ∧ nd ≤ b.endDate then Except.error msg
    else bccScan msg nd rest

/-- The outer `spotsList.forEach` of a `bookingConflictCheck` chain: the
thrown error likewise aborts the outer loop. -/
def bccSpots (msg : String) (nd : Int) : List (SpotRec × List BookingRec) → Except String Unit
  | [] => Except.ok ()
  | sp :: rest =>
    match bccScan msg nd sp.2 with
    | Except.error m => Except.error m
    | Except.ok () => bccSpots msg nd rest

theorem bccScan_eq (msg : String) (nd : Int) (bs : List BookingRec) :
    bccScan msg nd bs =
      if (∃ b ∈ bs, nd ≥ b.startDate ∧ nd ≤ b.endDate)
      then Except.error msg else Except.ok () := by
  induction bs with
  | nil => simp [bccScan]
  | cons b rest ih =>
    simp only [bccScan]
    by_cases hb : nd ≥ b.startDate ∧ nd ≤ b.endDate
    · rw [if_pos hb, if_pos ⟨b, List.mem_cons_self b rest, hb⟩]
    · rw [if_neg hb, ih]
      by_cases hr : ∃ x ∈ rest, nd ≥ x.startDate ∧ nd ≤ x.endDate
      · rcases hr with ⟨x, hx, hcond⟩
        rw [if_pos ⟨x, hx, hcond⟩, if_pos ⟨x, List.mem_cons_of_mem b hx, hcond⟩]
      · rw [if_neg hr, if_neg ?_]
        rintro ⟨x, hx, hcond⟩
        rcases List.mem_cons.mp hx with rfl | hx
        · exact hb hcond
        · exact hr ⟨x, hx, hcond⟩

theorem bccSpots_eq (msg : String) (nd : Int) (sps : List (SpotRec × List BookingRec)) :
    bccSpots msg nd sps =
      if (∃ sp ∈ sps, ∃ b ∈ sp.2, nd ≥ b.startDate ∧ nd ≤ b.endDate)
      then Except.error msg else Except.ok () := by
  induction sps with
  | nil => simp [bccSpots]
  | cons sp rest ih =>
    simp only [bccSpots]
    rw [bccScan_eq]
    by_cases hb : ∃ b ∈ sp.2, nd ≥ b.startDate ∧ nd ≤ b.endDate
    · rw [if_pos hb]
      rw [if_pos ⟨sp, List.mem_cons_self sp rest, hb⟩]
    · rw [if_neg hb]
      simp only []
      rw [ih]
      by_cases hr : ∃ x ∈ rest, ∃ b ∈ x.2, nd ≥ b.startDate ∧ nd ≤ b.endDate
      · rcases hr with ⟨x, hx, hcond⟩
        rw [if_pos ⟨x, hx, hcond⟩, if_pos ⟨x, List.mem_cons_of_mem sp hx, hcond⟩]
      · rw [if_neg hr, if_neg ?_]
        rintro ⟨x, hx, hcond⟩
        rcases List.mem_cons.mp hx with rfl | hx
        · exact hb hcond
        · exact hr ⟨x, hx, hcond⟩

/-- The `startDate` custom validator of `validateBooking` (lines 136-144):
throws exactly when the candidate start is strictly before now. -/
def validateStartDate (now s : Int) : Except String Unit :=
  if s < now then Except.error startPastMsg else Except.ok ()

/-- The `endDate` custom validator of `validateBooking` (lines 145-156):
`startBuffer` is `start + 86300000`; throws when the end is strictly
before now or on/before `startBuffer`. -/
def validateEndDate (now s e : Int) : Except String Unit :=
  let startBuffer := s + 86300000
  if e < now ∨ e ≤ startBuffer then Except.error endBeforeMsg else Except.ok ()

/-- Outcome of a PUT `/bookings/:bookingId` request.  Constructors name the
HTTP response the route sends; `crash` stands for the TypeError raised when
`spot` is `null` and `spot.Bookings` is read (the request errors out instead
of reaching a handler). -/
inductive Res where
  | notFound
  | forbidden
  | badRequest (errs : List String)
  | pastEnd
  | conflictRes (msg : String) (errs : ConflictErrors)
  | crash
  | updated (b : BookingRec)
deriving DecidableEq, Repr

/-- Modelled from the spec: `handleValidationErrors` (imported from
`utils/validation.js`, a file not under `src/`) rejects the request with an
`InvalidDateShape` error carrying the messages recorded by the preceding
validator chains, and passes control on when no chain recorded an error
(the pipeline is "terminal on first failure"). -/
def handleValidationErrors (errs : List String) : Except Res Unit :=
  if errs.isEmpty then Except.ok () else Except.error (Res.badRequest errs)

/-- The error messages recorded by the two `validateBooking` chains:
express-validator runs every chain and accumulates the thrown messages. -/
def validateBookingErrors (now s e : Int) : List String :=
  (match validateStartDate now s with
   | Except.error m => [m]
   | Except.ok _ => []) ++
  (match validateEndDate now s e with
   | Except.error m => [m]
   | Except.ok _ => [])

/-- The `validateBooking` middleware stack: both chains, then
`handleValidationErrors`. -/
def validateBooking (now s e : Int) : Except Res Unit :=
  handleValidationErrors (validateBookingErrors now s e)

/-- Embeds `pastBookingEndCheck` (lines 29-41): 403 when the stored end of the
booking being modified is strictly before now. -/
def pastBookingEndCheck (now : Int) (booking : BookingRec) : Except Res Unit :=
  if booking.endDate < now then Except.error Res.pastEnd else Except.ok ()

/-- Embeds `noSameDates` (lines 64-99) as a middleware: look up the spot with its
other bookings (inner join), run the buffered loop, and 403 with the
top-level message when any key was set. -/
def noSameDates (db : DB) (booking : BookingRec) (s e : Int) : Except Res Unit :=
  match db.findSpotWithOtherBookings booking.spotId booking.id with
  | none => Except.error Res.crash
  | some (_, others) =>
    if (noSameDatesErrors s e others).isEmpty then Except.ok ()
    else Except.error (Res.conflictRes bookedMsg (noSameDatesErrors s e others))

/-- Embeds `noBookingAround` (lines 101-133) as a middleware. -/
def noBookingAround (db : DB) (booking : BookingRec) (s e : Int) : Except Res Unit :=
  match db.findSpotWithOtherBookings booking.spotId booking.id with
  | none => Except.error Res.crash
  | some (_, others) =>
    if (noBookingAroundErrors s e others).isEmpty then Except.ok ()
    else Except.error (Res.conflictRes bookedMsg (noBookingAroundErrors s e others))

/-- Modelled from the spec: `handleBookingConflict` (imported from
`utils/validation.js`, a file not under `src/`) turns the errors thrown by
the `bookingConflictCheck` chains into a hard failure whose top-level
message is always the booked-spot message, with the thrown message under
each offending field; it passes control on when neither chain threw. -/
def handleBookingConflict (sErr eErr : Option String) : Except Res Unit :=
  if sErr.isNone && eErr.isNone then Except.ok ()
  else Except.error (Res.conflictRes bookedMsg ⟨sErr, eErr⟩)

/-- The messages thrown by the two `bookingConflictCheck` chains, keyed by
field, over the `Spot.findAll` rows for the spot of the booking under
modification. -/
def bccErrors (db : DB) (booking : BookingRec) (s e : Int) : ConflictErrors :=
  ⟨match bccSpots startConflictMsg s
      (db.findAllSpotsWithOtherBookings booking.spotId booking.id) with
    | Except.error m => some m
    | Except.ok _ => none,
   match bccSpots endConflictMsg e
      (db.findAllSpotsWithOtherBookings booking.spotId booking.id) with
    | Except.error m => some m
    | Except.ok _ => none⟩

/-- The `bookingConflictCheck` stack (lines 160-232): the two point-
containment chains over `Spot.findAll` rows, then `handleBookingConflict`. -/
def bookingConflictCheck (db : DB) (booking : BookingRec) (s e : Int) : Except Res Unit :=
  handleBookingConflict (bccErrors db booking s e).startDate (bccErrors db booking s e).endDate

/-- A JavaScript `Date` is an object, and every object is truthy, so
`start || updatedBooking.startDate` always evaluates to `start`. -/
def jsDateTruthy (_d : Int) : Bool := true

/-- The `x || y` fallback on a freshly constructed `Date` (lines 301-302). -/
def jsOrDate (d fallback : Int) : Int := if jsDateTruthy d then d else fallback

/-- The PUT handler body (lines 294-308): set the two date fields through
the `||` fallback and save. -/
def putHandler (booking : BookingRec) (s e : Int) : BookingRec :=
  { booking with
      startDate := jsOrDate s booking.startDate
      endDate := jsOrDate e booking.endDate }

/-- The whole middleware chain of `router.put("/:bookingId", requireAuth,
bookingAuthorize, validateBooking, pastBookingEndCheck, noSameDates,
noBookingAround, bookingConflictCheck, handler)`, for an authenticated
actor `userId`, in the exact order of line 294. -/
def updateBooking (db : DB) (now : Int) (userId bookingId : Nat) (s e : Int) : Res :=
  match db.findBooking bookingId with
  | none => Res.notFound
  | some booking =>
    if userId ≠ booking.userId then Res.forbidden
    else
      match validateBooking now s e with
      | Except.error r => r
      | Except.ok _ =>
        match pastBookingEndCheck now booking with
        | Except.error r => r
        | Except.ok _ =>
          match noSameDates db booking s e with
          | Except.error r => r
          | Except.ok _ =>
            match noBookingAround db booking s e with
            | Except.error r => r
            | Except.ok _ =>
              match bookingConflictCheck db booking s e with
              | Except.error r => r
              | Except.ok _ => Res.updated (putHandler booking s e)

/-- Outcome of a DELETE `/bookings/:bookingId` request.  `started` is the
403 saying started bookings cannot be deleted; `deleted` carries the
bookings table after `booking.destroy()` removed the row. -/
inductive DeleteRes where
  | notFound
  | forbidden
  | started
  | crash
  | deleted (remaining : List BookingRec)
deriving DecidableEq, Repr

/-- The DELETE route (lines 310-327) behind `bookingDeleteAuthorize`
(lines 43-62), for an authenticated actor `userId`. -/
def deleteBooking (db : DB) (now : Int) (userId bookingId : Nat) : DeleteRes :=
  match db.findBooking bookingId with
  | none => DeleteRes.notFound
  | some booking =>
    match db.findSpot booking.spotId with
    | none => DeleteRes.crash
    | some spot =>
      if userId ≠ booking.userId ∧ userId ≠ spot.ownerId then DeleteRes.forbidden
      else if now ≥ booking.startDate ∧ now ≤ booking.endDate then DeleteRes.started
      else DeleteRes.deleted (db.bookings.filter (fun b => b.id != booking.id))

theorem fswob_none_of_findSpot_none (db : DB) (sid excl : Nat)
    (hf : db.findSpot sid = none) :
    db.findSpotWithOtherBookings sid excl = none := by
  unfold DB.findSpotWithOtherBookings
  rw [hf]

theorem fswob_of_findSpot (db : DB) (sid excl : Nat) (sp : SpotRec)
    (hf : db.findSpot sid = some sp) :
    db.findSpotWithOtherBookings sid excl =
      if (db.otherBookingsOnSpot sid excl).isEmpty then none
      else some (sp, db.otherBookingsOnSpot sid excl) := by
  unfold DB.findSpotWithOtherBookings
  rw [hf]

theorem fswob_some_inv (db : DB) (sid excl : Nat) (sp : SpotRec)
    (others : List BookingRec)
    (h : db.findSpotWithOtherBookings sid excl = some (sp, others)) :
    db.findSpot sid = some sp ∧ others = db.otherBookingsOnSpot sid excl := by
  cases hf : db.findSpot sid with
  | none =>
    rw [fswob_none_of_findSpot_none db sid excl hf] at h
    cases h
  | some sp2 =>
    rw [fswob_of_findSpot db sid excl sp2 hf] at h
    by_cases he : (db.otherBookingsOnSpot sid excl).isEmpty = true
    · rw [if_pos he] at h
      cases h
    · rw [if_neg he] at h
      cases h
      exact ⟨rfl, rfl⟩

theorem handleValidationErrors_error (errs : List String) (r : Res)
    (h : handleValidationErrors errs = Except.error r) : r = Res.badRequest errs := by
  unfold handleValidationErrors at h
  split_ifs at h
  injection h with h1
  exact h1.symm

theorem validateBooking_error_not_updated (now s e : Int) (r : Res) (b2 : BookingRec)
    (h : validateBooking now s e = Except.error r) : r ≠ Res.updated b2 := by
  unfold validateBooking at h
  rw [handleValidationErrors_error _ _ h]
  exact fun hc => Res.noConfusion hc

theorem pastBookingEndCheck_error_eq (now : Int) (booking : BookingRec) (r : Res)
    (h : pastBookingEndCheck now booking = Except.error r) : r = Res.pastEnd := by
  unfold pastBookingEndCheck at h
  split_ifs at h
  injection h with h1
  exact h1.symm

theorem noSameDates_error_not_updated (db : DB) (booking : BookingRec) (s e : Int)
    (r : Res) (b2 : BookingRec)
    (h : noSameDates db booking s e = Except.error r) : r ≠ Res.updated b2 := by
  unfold noSameDates at h
  cases hl : db.findSpotWithOtherBookings booking.spotId booking.id with
  | none =>
    rw [hl] at h
    have h2 : Except.error (ε := Res) (α := Unit) Res.crash = Except.error r := h
    cases h2
    exact fun hc => Res.noConfusion hc
  | some p =>
    obtain ⟨sp, others⟩ := p
    rw [hl] at h
    have h2 :
        (if (noSameDatesErrors s e others).isEmpty then Except.ok ()
         else Except.error (ε := Res) (α := Unit)
           (Res.conflictRes bookedMsg (noSameDatesErrors s e others))) =
          Except.error r := h
    split_ifs at h2
    injection h2 with h3
    rw [← h3]
    exact fun hc => Res.noConfusion hc

theorem noBookingAround_error_not_updated (db : DB) (booking : BookingRec) (s e : Int)
    (r : Res) (b2 : BookingRec)
    (h : noBookingAround db booking s e = Except.error r) : r ≠ Res.updated b2 := by
  unfold noBookingAround at h
  cases hl : db.findSpotWithOtherBookings booking.spotId booking.id with
  | none =>
    rw [hl] at h
    have h2 : Except.error (ε := Res) (α := Unit) Res.crash = Except.error r := h
    cases h2
    exact fun hc => Res.noConfusion hc
  | some p =>
    obtain ⟨sp, others⟩ := p
    rw [hl] at h
    have h2 :
        (if (noBookingAroundErrors s e others).isEmpty then Except.ok ()
         else Except.error (ε := Res) (α := Unit)
           (Res.conflictRes bookedMsg (noBookingAroundErrors s e others))) =
          Except.error r := h
    split_ifs at h2
    injection h2 with h3
    rw [← h3]
    exact fun hc => Res.noConfusion hc

theorem bookingConflictCheck_error_not_updated (db : DB) (booking : BookingRec)
    (s e : Int) (r : Res) (b2 : BookingRec)
    (h : bookingConflictCheck db booking s e = Except.error r) : r ≠ Res.updated b2 := by
  unfold bookingConflictCheck handleBookingConflict at h
  split_ifs at h
  injection h with h1
  rw [← h1]
  exact fun hc => Res.noConfusion hc

theorem noSameDates_eq_of_lookup (db : DB) (booking : BookingRec) (s e : Int)
    (sp : SpotRec) (others : List BookingRec)
    (h : db.findSpotWithOtherBookings booking.spotId booking.id = some (sp, others)) :
    noSameDates db booking s e =
      if (noSameDatesErrors s e others).isEmpty then Except.ok ()
      else Except.error (Res.conflictRes bookedMsg (noSameDatesErrors s e others)) := by
  unfold noSameDates
  rw [h]

theorem noBookingAround_eq_of_lookup (db : DB) (booking : BookingRec) (s e : Int)
    (sp : SpotRec) (others : List BookingRec)
    (h : db.findSpotWithOtherBookings booking.spotId booking.id = some (sp, others)) :
    noBookingAround db booking s e =
      if (noBookingAroundErrors s e others).isEmpty then Except.ok ()
      else Except.error (Res.conflictRes bookedMsg (noBookingAroundErrors s e others)) := by
  unfold noBookingAround
  rw [h]

theorem exists_findAllSpots_iff (db : DB) (sid excl : Nat) (sp0 : SpotRec)
    (hf : db.findSpot sid = some sp0) (P : BookingRec → Prop) :
    (∃ sp ∈ db.findAllSpotsWithOtherBookings sid excl, ∃ b ∈ sp.2, P b) ↔
      ∃ b ∈ db.otherBookingsOnSpot sid excl, P b := by
  unfold DB.findAllSpotsWithOtherBookings
  rw [fswob_of_findSpot db sid excl sp0 hf]
  by_cases he : (db.otherBookingsOnSpot sid excl).isEmpty = true
  · rw [if_pos he]
    constructor
    · rintro ⟨sp, hsp, _⟩
      have hsp2 : sp ∈ ([] : List (SpotRec × List BookingRec)) := hsp
      exact absurd hsp2 (List.not_mem_nil sp)
    · rintro ⟨b, hb, _⟩
      rw [List.isEmpty_iff] at he
      rw [he] at hb
      exact absurd hb (List.not_mem_nil b)
  · rw [if_neg he]
    constructor
    · rintro ⟨sp, hsp, b, hb, hP⟩
      have hsp2 : sp ∈ [(sp0, db.otherBookingsOnSpot sid excl)] := hsp
      rw [List.mem_singleton] at hsp2
      subst hsp2
      exact ⟨b, hb, hP⟩
    · rintro ⟨b, hb, hP⟩
      exact ⟨(sp0, db.otherBookingsOnSpot sid excl),
        show (sp0, db.otherBookingsOnSpot sid excl) ∈
            [(sp0, db.otherBookingsOnSpot sid excl)] from List.mem_singleton.mpr rfl,
        b, hb, hP⟩

theorem bccErrors_startDate (db : DB) (booking : BookingRec) (s e : Int) :
    (bccErrors db booking s e).startDate =
      if ∃ sp ∈ db.findAllSpotsWithOtherBookings booking.spotId booking.id,
           ∃ b ∈ sp.2, s ≥ b.startDate ∧ s ≤ b.endDate
      then some startConflictMsg else none := by
  show (match bccSpots startConflictMsg s
      (db.findAllSpotsWithOtherBookings booking.spotId booking.id) with
    | Except.error m => some m
    | Except.ok _ => none) = _
  rw [bccSpots_eq]
  by_cases hx : ∃ sp ∈ db.findAllSpotsWithOtherBookings booking.spotId booking.id,
      ∃ b ∈ sp.2, s ≥ b.startDate ∧ s ≤ b.endDate
  · rw [if_pos hx, if_pos hx]
  · rw [if_neg hx, if_neg hx]

theorem bccErrors_endDate (db : DB) (booking : BookingRec) (s e : Int) :
    (bccErrors db booking s e).endDate =
      if ∃ sp ∈ db.findAllSpotsWithOtherBookings booking.spotId booking.id,
           ∃ b ∈ sp.2, e ≥ b.startDate ∧ e ≤ b.endDate
      then some endConflictMsg else none := by
  show (match bccSpots endConflictMsg e
      (db.findAllSpotsWithOtherBookings booking.spotId booking.id) with
    | Except.error m => some m
    | Except.ok _ => none) = _
  rw [bccSpots_eq]
  by_cases hx : ∃ sp ∈ db.findAllSpotsWithOtherBookings booking.spotId booking.id,
      ∃ b ∈ sp.2, e ≥ b.startDate ∧ e ≤ b.endDate
  · rw [if_pos hx, if_pos hx]
  · rw [if_neg hx, if_neg hx]

/-- Fixtures for concrete evaluations of the routes. -/
def wBooking : BookingRec := ⟨1, 1, 5, 1000, 2000⟩

def wOther : BookingRec := ⟨2, 1, 6, 1500, 2500⟩

def wSpot : SpotRec := ⟨1, 7⟩

def wDB : DB := ⟨[wBooking, wOther], [wSpot]⟩

def soloDB : DB := ⟨[wBooking], [wSpot]⟩

/-- C1: for an update request whose spot lookup succeeds, the buffered
pass flags `startDate` iff some other reservation on the same spot has a
start within 86300000 ms (inclusive) of the candidate start, independently
flags `endDate` iff some such reservation has an end within 86300000 ms of
the candidate end, and any non-empty report makes `noSameDates` reject
with the top-level booked-spot message; an empty report passes control
on. -/
theorem noSameDates_buffered_correct (db : DB) (booking : BookingRec) (sp : SpotRec)
    (others : List BookingRec) (s e : Int)
    (h : db.findSpotWithOtherBookings booking.spotId booking.id = some (sp, others)) :
    ((noSameDatesErrors s e others).startDate.isSome = true ↔
      ∃ b ∈ db.otherBookingsOnSpot booking.spotId booking.id,
        |s - b.startDate| ≤ PROXIMITY_BUFFER_MS)
  ∧ ((noSameDatesErrors s e others).endDate.isSome = true ↔
      ∃ b ∈ db.otherBookingsOnSpot booking.spotId booking.id,
        |e - b.endDate| ≤ PROXIMITY_BUFFER_MS)
  ∧ ((noSameDatesErrors s e others).isEmpty = false →
      noSameDates db booking s e =
        Except.error (Res.conflictRes bookedMsg (noSameDatesErrors s e others)))
  ∧ ((noSameDatesErrors s e others).isEmpty = true →
      noSameDates db booking s e = Except.ok ()) := by
  obtain ⟨hsp, hoth⟩ := fswob_some_inv db booking.spotId booking.id sp others h
  refine ⟨?_, ?_, ?_, ?_⟩
  · rw [← hoth]
    exact noSameDatesErrors_startDate_isSome s e others
  · rw [← hoth]
    exact noSameDatesErrors_endDate_isSome s e others
  · intro hne
    rw [noSameDates_eq_of_lookup db booking s e sp others h,
      if_neg (by rw [hne]; exact Bool.false_ne_true)]
  · intro hemp
    rw [noSameDates_eq_of_lookup db booking s e sp others h, if_pos hemp]

theorem noSameDates_buffered_instance :
    (noSameDatesErrors 1500 2600 [wOther]).startDate.isSome = true ↔
      ∃ b ∈ wDB.otherBookingsOnSpot wBooking.spotId wBooking.id,
        |(1500 : Int) - b.startDate| ≤ PROXIMITY_BUFFER_MS :=
  (noSameDates_buffered_correct wDB wBooking wSpot [wOther] 1500 2600 (by decide)).1

/-- C3: for an update request whose spot lookup succeeds, the enclosure
pass rejects with both `startDate` and `endDate` flagged (same messages as
the buffered pass, under the booked-spot top-level message) iff some other
reservation on the same spot satisfies
`other.start ≥ candidate.start ∧ other.end ≤ candidate.end`; otherwise it
flags nothing and passes control on. -/
theorem noBookingAround_enclosure_correct (db : DB) (booking : BookingRec)
    (sp : SpotRec) (others : List BookingRec) (s e : Int)
    (h : db.findSpotWithOtherBookings booking.spotId booking.id = some (sp, others)) :
    ((∃ b ∈ db.otherBookingsOnSpot booking.spotId booking.id,
        b.startDate ≥ s ∧ b.endDate ≤ e) →
      noBookingAround db booking s e =
        Except.error (Res.conflictRes bookedMsg
          ⟨some startConflictMsg, some endConflictMsg⟩))
  ∧ ((¬ ∃ b ∈ db.otherBookingsOnSpot booking.spotId booking.id,
        b.startDate ≥ s ∧ b.endDate ≤ e) →
      noBookingAround db booking s e = Except.ok ()) := by
  obtain ⟨hsp, hoth⟩ := fswob_some_inv db booking.spotId booking.id sp others h
  constructor
  · intro hex
    rw [noBookingAround_eq_of_lookup db booking s e sp others h,
      noBookingAroundErrors_eq, hoth, if_pos hex]
    rfl
  · intro hnex
    rw [noBookingAround_eq_of_lookup db booking s e sp others h,
      noBookingAroundErrors_eq, hoth, if_neg hnex]
    rfl

theorem noBookingAround_enclosure_instance :
    noBookingAround wDB wBooking 1400 2600 =
      Except.error (Res.conflictRes bookedMsg
        ⟨some startConflictMsg, some endConflictMsg⟩) :=
  (noBookingAround_enclosure_correct wDB wBooking wSpot [wOther] 1400 2600 (by decide)).1
    ⟨wOther, by decide, by decide⟩

/-- C4: for an update request on a booking whose spot exists, the
point-containment chains record a `startDate` error iff the candidate
start lies inside `[other.start, other.end]` (inclusive) for some other
reservation on the same spot, independently record an `endDate` error iff
the candidate end lies inside some such interval, and `bookingConflictCheck`
hands exactly these two recorded errors to the conflict responder. -/
theorem bookingConflictCheck_point_correct (db : DB) (booking : BookingRec)
    (sp0 : SpotRec) (s e : Int) (hf : db.findSpot booking.spotId = some sp0) :
    ((bccErrors db booking s e).startDate.isSome = true ↔
      ∃ b ∈ db.otherBookingsOnSpot booking.spotId booking.id,
        b.startDate ≤ s ∧ s ≤ b.endDate)
  ∧ ((bccErrors db booking s e).endDate.isSome = true ↔
      ∃ b ∈ db.otherBookingsOnSpot booking.spotId booking.id,
        b.startDate ≤ e ∧ e ≤ b.endDate)
  ∧ (bookingConflictCheck db booking s e =
      handleBookingConflict (bccErrors db booking s e).startDate
        (bccErrors db booking s e).endDate) := by
  have hiffS := exists_findAllSpots_iff db booking.spotId booking.id sp0 hf
      (fun b => s ≥ b.startDate ∧ s ≤ b.endDate)
  have hiffE := exists_findAllSpots_iff db booking.spotId booking.id sp0 hf
      (fun b => e ≥ b.startDate ∧ e ≤ b.endDate)
  refine ⟨?_, ?_, rfl⟩
  · rw [bccErrors_startDate]
    by_cases hx : ∃ sp ∈ db.findAllSpotsWithOtherBookings booking.spotId booking.id,
        ∃ b ∈ sp.2, s ≥ b.startDate ∧ s ≤ b.endDate
    · rw [if_pos hx]
      exact iff_of_true rfl (hiffS.mp hx)
    · rw [if_neg hx]
      exact iff_of_false (by simp) (fun hex => hx (hiffS.mpr hex))
  · rw [bccErrors_endDate]
    by_cases hx : ∃ sp ∈ db.findAllSpotsWithOtherBookings booking.spotId booking.id,
        ∃ b ∈ sp.2, e ≥ b.startDate ∧ e ≤ b.endDate
    · rw [if_pos hx]
      exact iff_of_true rfl (hiffE.mp hx)
    · rw [if_neg hx]
      exact iff_of_false (by simp) (fun hex => hx (hiffE.mpr hex))

theorem bookingConflictCheck_point_instance :
    (bccErrors wDB wBooking 1600 2600).startDate.isSome = true ↔
      ∃ b ∈ wDB.otherBookingsOnSpot wBooking.spotId wBooking.id,
        b.startDate ≤ 1600 ∧ (1600 : Int) ≤ b.endDate :=
  (bookingConflictCheck_point_correct wDB wBooking wSpot 1600 2600 (by decide)).1

/-- C5: the `startDate` validator rejects iff the candidate start is
strictly before now; the `endDate` validator rejects iff the candidate end
is strictly before now or on/before `start + 86300000`; in particular
`end = start + 86300000` is always rejected while
`end = start + 86300001` is accepted whenever it is not before now. -/
theorem validateBooking_shape_correct (now s e : Int) :
    (validateStartDate now s = Except.error startPastMsg ↔ s < now)
  ∧ (validateStartDate now s = Except.ok () ↔ ¬ s < now)
  ∧ (validateEndDate now s e = Except.error endBeforeMsg ↔
      (e < now ∨ e ≤ s + PROXIMITY_BUFFER_MS))
  ∧ (validateEndDate now s e = Except.ok () ↔
      ¬ (e < now ∨ e ≤ s + PROXIMITY_BUFFER_MS))
  ∧ validateEndDate now s (s + PROXIMITY_BUFFER_MS) = Except.error endBeforeMsg
  ∧ (now ≤ s + PROXIMITY_BUFFER_MS + 1 →
      validateEndDate now s (s + PROXIMITY_BUFFER_MS + 1) = Except.ok ()) := by
  unfold PROXIMITY_BUFFER_MS
  refine ⟨?_, ?_, ?_, ?_, ?_, ?_⟩
  · unfold validateStartDate
    by_cases h : s < now
    · rw [if_pos h]
      exact iff_of_true rfl h
    · rw [if_neg h]
      exact iff_of_false (fun hc => Except.noConfusion hc) h
  · unfold validateStartDate
    by_cases h : s < now
    · rw [if_pos h]
      exact iff_of_false (fun hc => Except.noConfusion hc) (fun hc => hc h)
    · rw [if_neg h]
      exact iff_of_true rfl h
  · simp only [validateEndDate]
    by_cases h : e < now ∨ e ≤ s + 86300000
    · rw [if_pos h]
      exact iff_of_true rfl h
    · rw [if_neg h]
      exact iff_of_false (fun hc => Except.noConfusion hc) h
  · simp only [validateEndDate]
    by_cases h : e < now ∨ e ≤ s + 86300000
    · rw [if_pos h]
      exact iff_of_false (fun hc => Except.noConfusion hc) (fun hc => hc h)
    · rw [if_neg h]
      exact iff_of_true rfl h
  · simp only [validateEndDate]
    rw [if_pos (Or.inr (le_refl (s + 86300000)))]
  · intro hnow
    simp only [validateEndDate]
    rw [if_neg ?_]
    rintro (hc | hc) <;> omega

theorem validateBooking_shape_instance :
    validateEndDate 0 0 (0 + PROXIMITY_BUFFER_MS + 1) = Except.ok () :=
  (validateBooking_shape_correct 0 0 0).2.2.2.2.2 (by decide)

theorem deleteBooking_eq (db : DB) (now : Int) (userId bookingId : Nat)
    (booking : BookingRec) (spot : SpotRec)
    (hb : db.findBooking bookingId = some booking)
    (hs : db.findSpot booking.spotId = some spot) :
    deleteBooking db now userId bookingId =
      if userId ≠ booking.userId ∧ userId ≠ spot.ownerId then DeleteRes.forbidden
      else if now ≥ booking.startDate ∧ now ≤ booking.endDate then DeleteRes.started
      else DeleteRes.deleted (db.bookings.filter (fun b => b.id != booking.id)) := by
  unfold deleteBooking
  rw [hb]
  show (match db.findSpot booking.spotId with
    | none => DeleteRes.crash
    | some spot =>
      if userId ≠ booking.userId ∧ userId ≠ spot.ownerId then DeleteRes.forbidden
      else if now ≥ booking.startDate ∧ now ≤ booking.endDate then DeleteRes.started
      else DeleteRes.deleted (List.filter (fun b => b.id != booking.id) db.bookings)) = _
  rw [hs]

/-- C6: on a cancel request, a missing booking yields the not-found
response; when booking and spot exist, the response is the forbidden one
iff the actor is neither the booking holder nor the spot owner; and a spot
owner who is not the holder gets past the gate, so that a booking that has
not yet started is deleted. -/
theorem deleteAuthorization_correct (db : DB) (now : Int) (userId bookingId : Nat) :
    (db.findBooking bookingId = none →
      deleteBooking db now userId bookingId = DeleteRes.notFound)
  ∧ (∀ booking spot, db.findBooking bookingId = some booking →
      db.findSpot booking.spotId = some spot →
      (deleteBooking db now userId bookingId = DeleteRes.forbidden ↔
        (userId ≠ booking.userId ∧ userId ≠ spot.ownerId)))
  ∧ (∀ booking spot, db.findBooking bookingId = some booking →
      db.findSpot booking.spotId = some spot →
      userId = spot.ownerId → userId ≠ booking.userId → now < booking.startDate →
      deleteBooking db now userId bookingId =
        DeleteRes.deleted (db.bookings.filter (fun b => b.id != booking.id))) := by
  refine ⟨?_, ?_, ?_⟩
  · intro hb
    unfold deleteBooking
    rw [hb]
  · intro booking spot hb hs
    rw [deleteBooking_eq db now userId bookingId booking spot hb hs]
    by_cases hcond : userId ≠ booking.userId ∧ userId ≠ spot.ownerId
    · rw [if_pos hcond]
      exact iff_of_true rfl hcond
    · rw [if_neg hcond]
      refine iff_of_false ?_ hcond
      by_cases hin : now ≥ booking.startDate ∧ now ≤ booking.endDate
      · rw [if_pos hin]
        exact fun hc => DeleteRes.noConfusion hc
      · rw [if_neg hin]
        exact fun hc => DeleteRes.noConfusion hc
  · intro booking spot hb hs howner hnothold hnow
    rw [deleteBooking_eq db now userId bookingId booking spot hb hs]
    have hcond : ¬ (userId ≠ booking.userId ∧ userId ≠ spot.ownerId) := by
      rintro ⟨_, h2⟩
      exact h2 howner
    rw [if_neg hcond]
    have hin : ¬ (now ≥ booking.startDate ∧ now ≤ booking.endDate) := by
      rintro ⟨h1, _⟩
      omega
    rw [if_neg hin]

theorem deleteAuthorization_instance :
    deleteBooking wDB 0 7 1 =
      DeleteRes.deleted (wDB.bookings.filter (fun b => b.id != wBooking.id)) :=
  (deleteAuthorization_correct wDB 0 7 1).2.2 wBooking wSpot (by decide) (by decide)
    rfl (by decide) (by decide)

/-- C7: for a cancel request that passed authorization (the actor is the
holder or the spot owner), the route responds with the started-booking
rejection iff now lies in `[booking.start, booking.end]` inclusive;
otherwise the booking row is destroyed and the success response is
returned. -/
theorem deleteInProgress_correct (db : DB) (now : Int) (userId bookingId : Nat)
    (booking : BookingRec) (spot : SpotRec)
    (hb : db.findBooking bookingId = some booking)
    (hs : db.findSpot booking.spotId = some spot)
    (hauth : userId = booking.userId ∨ userId = spot.ownerId) :
    (deleteBooking db now userId bookingId = DeleteRes.started ↔
      (booking.startDate ≤ now ∧ now ≤ booking.endDate))
  ∧ (¬ (booking.startDate ≤ now ∧ now ≤ booking.endDate) →
      deleteBooking db now userId bookingId =
        DeleteRes.deleted (db.bookings.filter (fun b => b.id != booking.id))) := by
  have hcond : ¬ (userId ≠ booking.userId ∧ userId ≠ spot.ownerId) := by
    rintro ⟨h1, h2⟩
    rcases hauth with h | h
    · exact h1 h
    · exact h2 h
  constructor
  · rw [deleteBooking_eq db now userId bookingId booking spot hb hs, if_neg hcond]
    by_cases hin : now ≥ booking.startDate ∧ now ≤ booking.endDate
    · rw [if_pos hin]
      exact iff_of_true rfl ⟨hin.1, hin.2⟩
    · rw [if_neg hin]
      exact iff_of_false (fun hc => DeleteRes.noConfusion hc)
        (fun hc => hin ⟨hc.1, hc.2⟩)
  · intro hout
    rw [deleteBooking_eq db now userId bookingId booking spot hb hs, if_neg hcond,
      if_neg (fun hc => hout ⟨hc.1, hc.2⟩)]

theorem deleteInProgress_instance :
    deleteBooking wDB 1500 5 1 = DeleteRes.started :=
  (deleteInProgress_correct wDB 1500 5 1 wBooking wSpot (by decide) (by decide)
    (Or.inl rfl)).1.mpr (by decide)

/-- The conjunction of all three conflict passes over a fixed comparison
list reporting nothing: the buffered and enclosure loops set no key and
neither point-containment scan throws. -/
def allPassesConflictFree (s e : Int) (others : List BookingRec) : Bool :=
  (noSameDatesErrors s e others).isEmpty &&
  (noBookingAroundErrors s e others).isEmpty &&
  (match bccScan startConflictMsg s others with
    | Except.ok _ => true
    | Except.error _ => false) &&
  (match bccScan endConflictMsg e others with
    | Except.ok _ => true
    | Except.error _ => false)

/-- C8: the booking under modification is excluded from its own comparison
set by the `Op.not` filter; hence when it is the only booking on its spot,
re-validating its own unchanged dates reports no conflict in any pass (in
particular none arising from itself); and the pure checks are
deterministic, so re-running them on an accepted pair against the same
set again reports no conflict. -/
theorem selfExclusion_idempotence (db : DB) (r : BookingRec) (s e : Int) :
    (∀ b ∈ db.otherBookingsOnSpot r.spotId r.id, b.id ≠ r.id)
  ∧ ((∀ b ∈ db.bookings, b.spotId = r.spotId → b.id = r.id) →
      allPassesConflictFree r.startDate r.endDate
        (db.otherBookingsOnSpot r.spotId r.id) = true)
  ∧ (allPassesConflictFree s e (db.otherBookingsOnSpot r.spotId r.id) = true →
      allPassesConflictFree s e (db.otherBookingsOnSpot r.spotId r.id) = true) := by
  refine ⟨?_, ?_, fun h => h⟩
  · intro b hb
    rw [DB.otherBookingsOnSpot, List.mem_filter] at hb
    have hcond := hb.2
    rw [Bool.and_eq_true] at hcond
    have : (b.id != r.id) = true := hcond.2
    rw [bne_iff_ne] at this
    exact this
  · intro hall
    have hnil : db.otherBookingsOnSpot r.spotId r.id = [] := by
      rw [DB.otherBookingsOnSpot, List.filter_eq_nil_iff]
      intro b hbmem
      rw [Bool.not_eq_true, Bool.and_eq_false_iff]
      by_cases hsp : b.spotId = r.spotId
      · right
        rw [bne_eq_false_iff_eq]
        exact hall b hbmem hsp
      · left
        exact beq_eq_false_iff_ne.mpr hsp
    rw [hnil]
    rfl

theorem selfExclusion_idempotence_instance :
    allPassesConflictFree wBooking.startDate wBooking.endDate
      (soloDB.otherBookingsOnSpot wBooking.spotId wBooking.id) = true :=
  (selfExclusion_idempotence soloDB wBooking 0 0).2.1 (by decide)

theorem updateBooking_eq (db : DB) (now : Int) (userId bookingId : Nat) (s e : Int)
    (booking : BookingRec) (hb : db.findBooking bookingId = some booking) :
    updateBooking db now userId bookingId s e =
      (if userId ≠ booking.userId then Res.forbidden
       else
        match validateBooking now s e with
        | Except.error r => r
        | Except.ok _ =>
          match pastBookingEndCheck now booking with
          | Except.error r => r
          | Except.ok _ =>
            match noSameDates db booking s e with
            | Except.error r => r
            | Except.ok _ =>
              match noBookingAround db booking s e with
              | Except.error r => r
              | Except.ok _ =>
                match bookingConflictCheck db booking s e with
                | Except.error r => r
                | Except.ok _ => Res.updated (putHandler booking s e)) := by
  unfold updateBooking
  rw [hb]

theorem putHandler_fields (booking : BookingRec) (s e : Int) :
    (putHandler booking s e).startDate = s ∧ (putHandler booking s e).endDate = e ∧
    (putHandler booking s e).id = booking.id ∧
    (putHandler booking s e).spotId = booking.spotId ∧
    (putHandler booking s e).userId = booking.userId :=
  ⟨rfl, rfl, rfl, rfl, rfl⟩

/-- C10: whenever the update pipeline reaches its handler and answers with
an updated booking, that booking carries exactly the requested start and
end (the `Date || fallback` expression never picks the old value, since a
constructed `Date` object is always truthy), and its id, spot reference
and holder reference are those of the stored booking. -/
theorem updateBooking_frame (db : DB) (now : Int) (userId bookingId : Nat)
    (s e : Int) (b2 : BookingRec)
    (h : updateBooking db now userId bookingId s e = Res.updated b2) :
    b2.startDate = s ∧ b2.endDate = e ∧
      ∃ booking, db.findBooking bookingId = some booking ∧
        b2.id = booking.id ∧ b2.spotId = booking.spotId ∧
        b2.userId = booking.userId := by
  cases hb : db.findBooking bookingId with
  | none =>
    unfold updateBooking at h
    rw [hb] at h
    exact Res.noConfusion (show Res.notFound = Res.updated b2 from h)
  | some booking =>
    rw [updateBooking_eq db now userId bookingId s e booking hb] at h
    by_cases hu : userId ≠ booking.userId
    · rw [if_pos hu] at h
      exact Res.noConfusion (show Res.forbidden = Res.updated b2 from h)
    · rw [if_neg hu] at h
      cases hv : validateBooking now s e with
      | error r =>
        rw [hv] at h
        exact absurd (show r = Res.updated b2 from h)
          (validateBooking_error_not_updated now s e r b2 hv)
      | ok u =>
        rw [hv] at h
        cases hp : pastBookingEndCheck now booking with
        | error r =>
          rw [hp] at h
          refine absurd (show r = Res.updated b2 from h) ?_
          rw [pastBookingEndCheck_error_eq now booking r hp]
          exact fun hc => Res.noConfusion hc
        | ok u2 =>
          rw [hp] at h
          cases hn1 : noSameDates db booking s e with
          | error r =>
            rw [hn1] at h
            exact absurd (show r = Res.updated b2 from h)
              (noSameDates_error_not_updated db booking s e r b2 hn1)
          | ok u3 =>
            rw [hn1] at h
            cases hn2 : noBookingAround db booking s e with
            | error r =>
              rw [hn2] at h
              exact absurd (show r = Res.updated b2 from h)
                (noBookingAround_error_not_updated db booking s e r b2 hn2)
            | ok u4 =>
              rw [hn2] at h
              cases hc5 : bookingConflictCheck db booking s e with
              | error r =>
                rw [hc5] at h
                exact absurd (show r = Res.updated b2 from h)
                  (bookingConflictCheck_error_not_updated db booking s e r b2 hc5)
              | ok u5 =>
                rw [hc5] at h
                have h6 : Res.updated (putHandler booking s e) = Res.updated b2 := h
                injection h6 with h7
                subst h7
                obtain ⟨f1, f2, f3, f4, f5⟩ := putHandler_fields booking s e
                exact ⟨f1, f2, booking, rfl, f3, f4, f5⟩

theorem updateBooking_frame_instance :
    (⟨1, 1, 5, 100000000, 186300001⟩ : BookingRec).startDate = 100000000 ∧
    (⟨1, 1, 5, 100000000, 186300001⟩ : BookingRec).endDate = 186300001 ∧
    ∃ booking, wDB.findBooking 1 = some booking ∧
      (⟨1, 1, 5, 100000000, 186300001⟩ : BookingRec).id = booking.id ∧
      (⟨1, 1, 5, 100000000, 186300001⟩ : BookingRec).spotId = booking.spotId ∧
      (⟨1, 1, 5, 100000000, 186300001⟩ : BookingRec).userId = booking.userId :=
  updateBooking_frame wDB 0 5 1 100000000 186300001
    ⟨1, 1, 5, 100000000, 186300001⟩ (by decide)

def pastBooking : BookingRec := ⟨3, 1, 5, 100, 200⟩

def pastDB : DB := ⟨[pastBooking, wOther], [wSpot]⟩

/-- C2 counterexample: booking 3 has stored end 200, already before
now = 1000, yet asking for new dates that are themselves invalid
(start 500 is in the past) yields the date-shape rejection of
`validateBooking`, not the past-end rejection: on line 294 the
`validateBooking` stack is mounted before `pastBookingEndCheck`. -/
theorem updateOrder_counterexample :
    pastDB.findBooking 3 = some pastBooking ∧
    pastBooking.endDate < 1000 ∧
    updateBooking pastDB 1000 5 3 500 600 =
      Res.badRequest [startPastMsg, endBeforeMsg] ∧
    updateBooking pastDB 1000 5 3 500 600 ≠ Res.pastEnd := by
  refine ⟨by decide, by decide, by decide, by decide⟩

/-- C2 amended: when the stored end of the booking is strictly before now
AND both proposed dates pass the date-shape validators, the update is
rejected with the past-end response; the date-shape stage runs first, so
the past-end rejection is reached exactly for shape-valid dates. -/
theorem pastEnd_after_dateShape (db : DB) (now : Int) (userId bookingId : Nat)
    (s e : Int) (booking : BookingRec)
    (hb : db.findBooking bookingId = some booking)
    (hauth : userId = booking.userId)
    (hpast : booking.endDate < now)
    (hvs : validateStartDate now s = Except.ok ())
    (hve : validateEndDate now s e = Except.ok ()) :
    updateBooking db now userId bookingId s e = Res.pastEnd := by
  rw [updateBooking_eq db now userId bookingId s e booking hb,
    if_neg (fun hc => hc hauth)]
  have hv : validateBooking now s e = Except.ok () := by
    unfold validateBooking validateBookingErrors
    rw [hvs, hve]
    rfl
  have hp : pastBookingEndCheck now booking = Except.error Res.pastEnd := by
    unfold pastBookingEndCheck
    rw [if_pos hpast]
  rw [hv, hp]

theorem pastEnd_after_dateShape_instance :
    updateBooking pastDB 1000 5 3 2000 88302001 = Res.pastEnd :=
  pastEnd_after_dateShape pastDB 1000 5 3 2000 88302001 pastBooking (by decide) rfl
    (by decide) (by rfl) (by rfl)

/-- C9: when the spot of the booking under modification has no other
bookings, the `Op.not`-filtered comparison set is empty, so the inner-join
`findByPk` of `noSameDates` returns no row; reading `.Bookings` of that
`null` row makes the request error out instead of iterating an empty list,
reporting no conflict and passing control on — shown here on an update
that passes every earlier stage. -/
theorem emptyOtherBookings_crash :
    soloDB.otherBookingsOnSpot wBooking.spotId wBooking.id = [] ∧
    soloDB.findSpotWithOtherBookings wBooking.spotId wBooking.id = none ∧
    noSameDates soloDB wBooking 5000 86400000 = Except.error Res.crash ∧
    updateBooking soloDB 0 5 1 5000 86400000 = Res.crash := by
  refine ⟨by decide, by decide, by rfl, by decide⟩
